import Mathlib

/-!
Verification of the ballistic trajectory predictor
`UEBBarrel::PredictHitFromLocation` (Predict.cpp) of the EasyBallistics
plugin, as a shallow embedding over exact rational arithmetic.

Modelling choices:
* `float` scalars are modelled by `ℚ` (exact arithmetic; the spec states its
  counting properties "within floating tolerance", which the rational model
  realises exactly).
* `FVector` becomes `Vec3`, a record of three rationals.
* The collision query (`PredictTrace`, a wrapper around the engine's
  `LineTraceSingleByChannel`) is an abstract adapter
  `trace : Vec3 → Vec3 → Option HitRes`: `some hr` is a blocking hit with
  `hr.time` the hit fraction along the segment, `hr.location` the hit point and
  `hr.actor` the struck actor; `none` is no hit.  The bullet's trace channel,
  complexity flags and the ignore list are configuration of that adapter and
  are folded into it.
* `AEBBullet::UpdateVelocity(World, Location, Velocity, Step)` is the profile's
  per-step velocity-update rule; the world pointer is ambient state and is
  omitted from the embedding, so the rule is `Vec3 → Vec3 → ℚ → Vec3`.
* Actors are identified by natural numbers; a nullable actor pointer is
  `Option ℕ`.
* The C++ function writes through reference out-parameters and may return
  early, leaving them at the caller's values; the embedding takes the
  caller-visible initial values as an `Outputs` record and returns the final
  record.
* The `while (Time < MaxTime)` loop has no structural termination measure
  (and indeed does not terminate for `Step ≤ 0 < MaxTime` with no hit), so
  the loop is given an explicit iteration budget `fuel`; `none` means the
  loop did not finish within `fuel` iterations.  Only loop iterations consume
  fuel: the final guard check and the post-loop epilogue are free, so for any
  terminating execution a large enough `fuel` yields `some` of the exact
  outputs of the C++ code.
-/

/-- A 3-D vector of rationals, modelling `FVector`. -/
@[ext] structure Vec3 where
  x : ℚ
  y : ℚ
  z : ℚ
deriving DecidableEq

instance : Add Vec3 where
  add a b := ⟨a.x + b.x, a.y + b.y, a.z + b.z⟩

instance : Sub Vec3 where
  sub a b := ⟨a.x - b.x, a.y - b.y, a.z - b.z⟩

instance : SMul ℚ Vec3 where
  smul q v := ⟨q * v.x, q * v.y, q * v.z⟩

@[simp] lemma Vec3.add_def (a b : Vec3) : a + b = ⟨a.x + b.x, a.y + b.y, a.z + b.z⟩ := rfl

@[simp] lemma Vec3.sub_def (a b : Vec3) : a - b = ⟨a.x - b.x, a.y - b.y, a.z - b.z⟩ := rfl

@[simp] lemma Vec3.smul_def (q : ℚ) (v : Vec3) : q • v = ⟨q * v.x, q * v.y, q * v.z⟩ := rfl

/-- `FMath::Lerp` on scalars: `A + Alpha*(B-A)`. -/
def lerpQ (a b t : ℚ) : ℚ := a + t * (b - a)

/-- `FMath::Lerp` on vectors: `A + Alpha*(B-A)`, componentwise. -/
def lerpV (a b : Vec3) (t : ℚ) : Vec3 := a + t • (b - a)

/-- Squared Euclidean norm of a `Vec3`. -/
def Vec3.normSq (v : Vec3) : ℚ := v.x * v.x + v.y * v.y + v.z * v.z

/-- Exact rational square root: correct whenever numerator and denominator are
perfect squares (in particular on `0` and `1`, the only values the concrete
scenarios below need). Models the engine's floating-point square root. -/
def ratSqrt (q : ℚ) : ℚ := (Nat.sqrt q.num.toNat : ℚ) / (Nat.sqrt q.den : ℚ)

/-- Model of `FVector::GetSafeNormal`: the zero vector stays zero, any other
vector is scaled by the reciprocal of its norm. -/
def Vec3.getSafeNormal (v : Vec3) : Vec3 :=
  if v.normSq = 0 then ⟨0, 0, 0⟩ else (1 / ratSqrt v.normSq) • v

/-- The relevant content of an engine `FHitResult` reported by a blocking
line trace: hit location, hit fraction (`FHitResult::Time`, the parameter along
the segment, reported by the engine in `[0,1]`), and the struck actor. -/
structure HitRes where
  location : Vec3
  time : ℚ
  actor : Option ℕ
deriving DecidableEq

/-- The out-parameters of `PredictHitFromLocation`, as seen by the caller. -/
structure Outputs where
  Hit : Bool
  HitResult : Option HitRes
  HitLocation : Vec3
  HitTime : ℚ
  HitActor : Option ℕ
  Trajectory : List Vec3
deriving DecidableEq

/-- Caller-visible defaults for the out-parameters (what a Blueprint caller
passes in: no hit, empty trajectory, zeroed scalars, null actor). -/
def defaultOutputs : Outputs :=
  { Hit := false, HitResult := none, HitLocation := ⟨0, 0, 0⟩, HitTime := 0,
    HitActor := none, Trajectory := [] }

/-- The fields of the bullet class default object read by the predictor:
muzzle velocity range and the per-step velocity-update rule
`UpdateVelocity(Location, Velocity, Step)` (the world argument is ambient and
omitted). -/
structure Bullet where
  MuzzleVelocityMin : ℚ
  MuzzleVelocityMax : ℚ
  UpdateVelocity : Vec3 → Vec3 → ℚ → Vec3

/-- The attach parent, when it casts to a `UPrimitiveComponent`: whether it
simulates physics, and its linear velocity field at a point. -/
structure Parent where
  simulatingPhysics : Bool
  physicsLinearVelocityAt : Vec3 → Vec3

/-- The barrel state read by the predictor.  `attachParent = none` covers both
a null attach parent and one that is not a primitive component (the C++ code
casts and null-checks). -/
structure Barrel where
  MuzzleVelocityMultiplierMin : ℚ
  MuzzleVelocityMultiplierMax : ℚ
  AdditionalVelocity : Vec3
  InheritVelocity : ℚ
  attachParent : Option Parent

/-- The initial bullet velocity computed at lines 23-33 of Predict.cpp:
`AimDirection.GetSafeNormal() * (Lerp(MulMin, MulMax, 0.5) * Lerp(MuzMin, MuzMax, 0.5))`,
plus `AdditionalVelocity`, plus — when the attach parent is a primitive
component simulating physics — the parent's linear velocity at the start
location scaled by `InheritVelocity`. -/
def initialVelocity (barrel : Barrel) (bullet : Bullet) (startLocation aimDirection : Vec3) : Vec3 :=
  let v :=
    (lerpQ barrel.MuzzleVelocityMultiplierMin barrel.MuzzleVelocityMultiplierMax (1/2)
      * lerpQ bullet.MuzzleVelocityMin bullet.MuzzleVelocityMax (1/2)) • aimDirection.getSafeNormal
  let v := v + barrel.AdditionalVelocity
  match barrel.attachParent with
  | none => v
  | some parent =>
      if parent.simulatingPhysics then
        v + barrel.InheritVelocity • parent.physicsLinearVelocityAt startLocation
      else v

/-- The displacement term `FMath::Lerp(PreviousVelocity, Velocity, 0.5f) * Step`
of one integration step, where `Velocity` is the updated velocity
`Bullet->UpdateVelocity(CurrentLocation, PreviousVelocity, Step)`.  It is used
both as the collision-query segment extent and as the position advance. -/
def stepDisplacement (bullet : Bullet) (step : ℚ) (loc vel : Vec3) : Vec3 :=
  step • lerpV vel (bullet.UpdateVelocity loc vel step) (1/2)

/-- The outputs written by the post-loop epilogue (lines 53-56 of Predict.cpp):
`Hit=false`, `HitTime=MaxTime`, `HitLocation=CurrentLocation`,
`HitActor=nullptr`; `HitResult` and `Trajectory` keep their accumulated
values. -/
def missOuts (maxTime : ℚ) (loc : Vec3) (traj : List Vec3) (outs : Outputs) : Outputs :=
  { Hit := false, HitResult := outs.HitResult, HitLocation := loc,
    HitTime := maxTime, HitActor := none, Trajectory := traj }

/-- The outputs written by the hit branch (lines 40-45 of Predict.cpp): the hit
location is appended to the trajectory, `HitTime = Time + HitResult.Time*Step`,
and the hit result, actor and location are reported. -/
def hitOuts (time step : ℚ) (hr : HitRes) (traj : List Vec3) : Outputs :=
  { Hit := true, HitResult := some hr, HitLocation := hr.location,
    HitTime := time + hr.time * step, HitActor := hr.actor,
    Trajectory := traj ++ [hr.location] }

/-- The `while (Time < MaxTime)` loop of `PredictHitFromLocation`
(lines 35-51 of Predict.cpp), with an explicit iteration budget `fuel`
(`none` = the loop did not finish within `fuel` iterations; the guard check
and the epilogue consume no fuel). -/
def predictLoop (bullet : Bullet) (trace : Vec3 → Vec3 → Option HitRes) (maxTime step : ℚ) :
    ℕ → ℚ → Vec3 → Vec3 → List Vec3 → Outputs → Option Outputs
  | 0, time, loc, _, traj, outs =>
      if time < maxTime then none else some (missOuts maxTime loc traj outs)
  | fuel + 1, time, loc, vel, traj, outs =>
      if time < maxTime then
        match trace loc (loc + stepDisplacement bullet step loc vel) with
        | some hr => some (hitOuts time step hr traj)
        | none =>
            predictLoop bullet trace maxTime step fuel (time + step)
              (loc + stepDisplacement bullet step loc vel)
              (bullet.UpdateVelocity loc vel step) (traj ++ [loc]) outs
      else some (missOuts maxTime loc traj outs)

/-- `UEBBarrel::PredictHitFromLocation` (Predict.cpp lines 12-57).
`bulletClass = none` models an invalid/unresolvable bullet class: the function
logs a warning and returns with every out-parameter untouched.  Otherwise the
trajectory out-parameter is reset to empty and the integration loop runs from
time `0` at `startLocation` with the computed initial velocity. -/
def PredictHitFromLocation (barrel : Barrel) (bulletClass : Option Bullet)
    (trace : Vec3 → Vec3 → Option HitRes) (startLocation aimDirection : Vec3)
    (maxTime step : ℚ) (init : Outputs) (fuel : ℕ) : Option Outputs :=
  match bulletClass with
  | none => some init
  | some bullet =>
      predictLoop bullet trace maxTime step fuel 0 startLocation
        (initialVelocity barrel bullet startLocation aimDirection) [] init

/-- The loop state: elapsed time, current location, current velocity,
accumulated trajectory samples. -/
structure LoopState where
  time : ℚ
  loc : Vec3
  vel : Vec3
  traj : List Vec3

/-- The loop state on entry: time `0`, the start location, the initial
velocity, no samples. -/
def initState (startLocation v0 : Vec3) : LoopState :=
  { time := 0, loc := startLocation, vel := v0, traj := [] }

/-- One non-hit iteration of the loop (the `else` branch, lines 47-50 of
Predict.cpp): append the pre-move location, advance the location by the step
displacement, adopt the updated velocity, advance time by `step`. -/
def loopBody (bullet : Bullet) (step : ℚ) (s : LoopState) : LoopState :=
  { time := s.time + step,
    loc := s.loc + stepDisplacement bullet step s.loc s.vel,
    vel := bullet.UpdateVelocity s.loc s.vel step,
    traj := s.traj ++ [s.loc] }

/-- A zero-drag bullet: muzzle velocity 100, velocity-update rule returning its
input velocity unchanged. -/
def bulletZeroDrag : Bullet :=
  { MuzzleVelocityMin := 100, MuzzleVelocityMax := 100,
    UpdateVelocity := fun _ v _ => v }

/-- A barrel with unit muzzle-velocity multipliers, no additional velocity and
no attach parent. -/
def barrelDefault : Barrel :=
  { MuzzleVelocityMultiplierMin := 1, MuzzleVelocityMultiplierMax := 1,
    AdditionalVelocity := ⟨0, 0, 0⟩, InheritVelocity := 1, attachParent := none }

/-- A collision adapter that never reports a hit. -/
def traceNone : Vec3 → Vec3 → Option HitRes := fun _ _ => none

/-- A collision adapter that reports a hit at the end of every queried segment,
with hit fraction 1. -/
def traceAlwaysHitEnd : Vec3 → Vec3 → Option HitRes :=
  fun _ e => some { location := e, time := 1, actor := some 0 }

/-! ### Helper lemmas -/

lemma lerpQ_half (a b : ℚ) : lerpQ a b (1/2) = (a + b) / 2 := by
  unfold lerpQ; ring

lemma lerpV_half (a b : Vec3) : lerpV a b (1/2) = (1/2 : ℚ) • (a + b) := by
  unfold lerpV
  ext <;> simp <;> ring

lemma ratSqrt_one : ratSqrt 1 = 1 := by
  simp [ratSqrt]

lemma getSafeNormal_unitX : Vec3.getSafeNormal ⟨1, 0, 0⟩ = ⟨1, 0, 0⟩ := by
  rw [Vec3.getSafeNormal]
  norm_num [Vec3.normSq, ratSqrt_one]

/-- Remaining iteration count: once the guard fails, no iterations are left. -/
lemma ceil_remaining_zero (maxTime time step : ℚ) (hstep : 0 < step)
    (h : ¬ time < maxTime) : Nat.ceil ((maxTime - time) / step) = 0 := by
  have h1 : maxTime - time ≤ 0 := sub_nonpos.mpr (not_lt.mp h)
  have h2 : (maxTime - time) / step ≤ 0 := div_nonpos_iff.mpr (Or.inr ⟨h1, hstep.le⟩)
  exact Nat.ceil_eq_zero.mpr h2

/-- Remaining iteration count: while the guard holds, one iteration is taken
and the remaining count drops by one. -/
lemma ceil_remaining_succ (maxTime time step : ℚ) (hstep : 0 < step)
    (h : time < maxTime) :
    Nat.ceil ((maxTime - time) / step) = Nat.ceil ((maxTime - (time + step)) / step) + 1 := by
  have hne : step ≠ 0 := ne_of_gt hstep
  have key : (maxTime - time) / step = (maxTime - (time + step)) / step + 1 := by
    field_simp
    ring
  rw [key]
  rcases le_or_lt 0 ((maxTime - (time + step)) / step) with h0 | h0
  · exact Nat.ceil_add_one h0
  · have hpos : (0 : ℚ) < (maxTime - (time + step)) / step + 1 := by
      have hgt : (0 : ℚ) < (maxTime - time) / step := div_pos (sub_pos.mpr h) hstep
      rw [key] at hgt
      exact hgt
    have hle : (maxTime - (time + step)) / step + 1 ≤ 1 := by linarith
    have hup : Nat.ceil ((maxTime - (time + step)) / step + 1) ≤ 1 := by
      rw [Nat.ceil_le]
      exact_mod_cast hle
    have hlow : 0 < Nat.ceil ((maxTime - (time + step)) / step + 1) := Nat.ceil_pos.mpr hpos
    have hz : Nat.ceil ((maxTime - (time + step)) / step) = 0 := Nat.ceil_eq_zero.mpr h0.le
    omega

lemma loopBody_iterate_time (bullet : Bullet) (step : ℚ) (k : ℕ) (s : LoopState) :
    ((loopBody bullet step)^[k] s).time = s.time + (k : ℚ) * step := by
  induction k generalizing s with
  | zero => simp
  | succ n ih =>
      rw [Function.iterate_succ_apply, ih]
      push_cast
      simp [loopBody]
      ring

lemma loopBody_iterate_len (bullet : Bullet) (step : ℚ) (k : ℕ) (s : LoopState) :
    ((loopBody bullet step)^[k] s).traj.length = s.traj.length + k := by
  induction k generalizing s with
  | zero => simp
  | succ n ih =>
      rw [Function.iterate_succ_apply, ih]
      simp [loopBody]
      omega

/-- Characterisation of the loop when the collision adapter never reports a
hit: with enough fuel, the loop runs exactly the remaining
`⌈(maxTime - time)/step⌉₊` iterations of `loopBody` and returns the miss
outputs of the final state. -/
lemma predictLoop_noHit (bullet : Bullet) (trace : Vec3 → Vec3 → Option HitRes)
    (maxTime step : ℚ) (hstep : 0 < step) (hnone : ∀ a b, trace a b = none) :
    ∀ (fuel : ℕ) (s : LoopState) (outs : Outputs),
      Nat.ceil ((maxTime - s.time) / step) ≤ fuel →
      predictLoop bullet trace maxTime step fuel s.time s.loc s.vel s.traj outs
        = some (missOuts maxTime
            ((loopBody bullet step)^[Nat.ceil ((maxTime - s.time) / step)] s).loc
            ((loopBody bullet step)^[Nat.ceil ((maxTime - s.time) / step)] s).traj outs) := by
  intro fuel
  induction fuel with
  | zero =>
      intro s outs hfuel
      have hz : Nat.ceil ((maxTime - s.time) / step) = 0 := Nat.le_zero.mp hfuel
      have hlt : ¬ s.time < maxTime := by
        intro hc
        have := ceil_remaining_succ maxTime s.time step hstep hc
        omega
      rw [hz]
      simp [predictLoop, if_neg hlt]
  | succ n ih =>
      intro s outs hfuel
      by_cases hlt : s.time < maxTime
      · have hsucc := ceil_remaining_succ maxTime s.time step hstep hlt
        have htime : (loopBody bullet step s).time = s.time + step := rfl
        have hnext : Nat.ceil ((maxTime - (loopBody bullet step s).time) / step) ≤ n := by
          rw [htime]
          omega
        have hrec := ih (loopBody bullet step s) outs hnext
        rw [hsucc, Function.iterate_succ_apply]
        calc predictLoop bullet trace maxTime step (n + 1) s.time s.loc s.vel s.traj outs
            = predictLoop bullet trace maxTime step n (s.time + step)
                (s.loc + stepDisplacement bullet step s.loc s.vel)
                (bullet.UpdateVelocity s.loc s.vel step) (s.traj ++ [s.loc]) outs := by
              simp [predictLoop, if_pos hlt, hnone]
          _ = some (missOuts maxTime
                ((loopBody bullet step)^[Nat.ceil ((maxTime - (loopBody bullet step s).time) / step)]
                  (loopBody bullet step s)).loc
                ((loopBody bullet step)^[Nat.ceil ((maxTime - (loopBody bullet step s).time) / step)]
                  (loopBody bullet step s)).traj outs) := hrec
          _ = some (missOuts maxTime
                ((loopBody bullet step)^[Nat.ceil ((maxTime - (s.time + step)) / step)]
                  (loopBody bullet step s)).loc
                ((loopBody bullet step)^[Nat.ceil ((maxTime - (s.time + step)) / step)]
                  (loopBody bullet step s)).traj outs) := by rw [htime]
      · have hz := ceil_remaining_zero maxTime s.time step hstep hlt
        rw [hz]
        simp [predictLoop, if_neg hlt]

/-- Characterisation of a hit outcome: the reported hit time is
`(time + j*step) + fraction*step` for some number `j` of completed full steps,
the guard held when the hitting step began, and the trajectory gained exactly
`j + 1` samples (`j` pre-move samples plus the hit position). -/
lemma predictLoop_hit_char (bullet : Bullet) (trace : Vec3 → Vec3 → Option HitRes)
    (maxTime step : ℚ) :
    ∀ (fuel : ℕ) (time : ℚ) (loc vel : Vec3) (traj : List Vec3) (outs0 outs : Outputs),
      predictLoop bullet trace maxTime step fuel time loc vel traj outs0 = some outs →
      outs.Hit = true →
      ∃ (j : ℕ) (a b : Vec3) (hr : HitRes),
        trace a b = some hr ∧
        outs.HitTime = (time + (j : ℚ) * step) + hr.time * step ∧
        time + (j : ℚ) * step < maxTime ∧
        outs.Trajectory.length = traj.length + j + 1 := by
  intro fuel
  induction fuel with
  | zero =>
      intro time loc vel traj outs0 outs hrun hhit
      by_cases hlt : time < maxTime
      · simp [predictLoop, if_pos hlt] at hrun
      · simp [predictLoop, if_neg hlt] at hrun
        rw [← hrun] at hhit
        simp [missOuts] at hhit
  | succ n ih =>
      intro time loc vel traj outs0 outs hrun hhit
      by_cases hlt : time < maxTime
      · rw [predictLoop, if_pos hlt] at hrun
        cases htr : trace loc (loc + stepDisplacement bullet step loc vel) with
        | some hr =>
            rw [htr] at hrun
            have houts : outs = hitOuts time step hr traj := by
              exact (Option.some.inj hrun).symm
            refine ⟨0, loc, loc + stepDisplacement bullet step loc vel, hr, htr, ?_, ?_, ?_⟩
            · rw [houts]
              simp [hitOuts]
            · simpa using hlt
            · rw [houts]
              simp [hitOuts]
        | none =>
            rw [htr] at hrun
            obtain ⟨j, a, b, hr, h1, h2, h3, h4⟩ :=
              ih (time + step) (loc + stepDisplacement bullet step loc vel)
                (bullet.UpdateVelocity loc vel step) (traj ++ [loc]) outs0 outs hrun hhit
            refine ⟨j + 1, a, b, hr, h1, ?_, ?_, ?_⟩
            · rw [h2]
              push_cast
              ring
            · push_cast
              linarith
            · rw [h4]
              simp
              omega
      · rw [predictLoop, if_neg hlt] at hrun
        rw [← Option.some.inj hrun] at hhit
        simp [missOuts] at hhit

/-- On a miss outcome the trajectory gained exactly the full
`⌈(maxTime - time)/step⌉₊` samples, one per iteration, whatever the collision
adapter answered along the way. -/
lemma predictLoop_miss_length (bullet : Bullet) (trace : Vec3 → Vec3 → Option HitRes)
    (maxTime step : ℚ) (hstep : 0 < step) :
    ∀ (fuel : ℕ) (time : ℚ) (loc vel : Vec3) (traj : List Vec3) (outs0 outs : Outputs),
      predictLoop bullet trace maxTime step fuel time loc vel traj outs0 = some outs →
      outs.Hit = false →
      outs.Trajectory.length = traj.length + Nat.ceil ((maxTime - time) / step) := by
  intro fuel
  induction fuel with
  | zero =>
      intro time loc vel traj outs0 outs hrun hmiss
      by_cases hlt : time < maxTime
      · simp [predictLoop, if_pos hlt] at hrun
      · rw [predictLoop, if_neg hlt] at hrun
        rw [← Option.some.inj hrun]
        rw [ceil_remaining_zero maxTime time step hstep hlt]
        simp [missOuts]
  | succ n ih =>
      intro time loc vel traj outs0 outs hrun hmiss
      by_cases hlt : time < maxTime
      · rw [predictLoop, if_pos hlt] at hrun
        cases htr : trace loc (loc + stepDisplacement bullet step loc vel) with
        | some hr =>
            rw [htr] at hrun
            rw [← Option.some.inj hrun] at hmiss
            simp [hitOuts] at hmiss
        | none =>
            rw [htr] at hrun
            have hlen := ih (time + step) (loc + stepDisplacement bullet step loc vel)
              (bullet.UpdateVelocity loc vel step) (traj ++ [loc]) outs0 outs hrun hmiss
            rw [hlen, ceil_remaining_succ maxTime time step hstep hlt]
            simp
            omega
      · rw [predictLoop, if_neg hlt] at hrun
        rw [← Option.some.inj hrun]
        rw [ceil_remaining_zero maxTime time step hstep hlt]
        simp [missOuts]

/-- With a non-positive step, a live guard and an adapter that never reports a
hit, no iteration budget suffices: the loop never terminates. -/
lemma predictLoop_nonpos_step_none (bullet : Bullet) (trace : Vec3 → Vec3 → Option HitRes)
    (maxTime step : ℚ) (hstep : step ≤ 0) (hnone : ∀ a b, trace a b = none) :
    ∀ (fuel : ℕ) (time : ℚ) (loc vel : Vec3) (traj : List Vec3) (outs : Outputs),
      time < maxTime →
      predictLoop bullet trace maxTime step fuel time loc vel traj outs = none := by
  intro fuel
  induction fuel with
  | zero =>
      intro time loc vel traj outs hlt
      simp [predictLoop, if_pos hlt]
  | succ n ih =>
      intro time loc vel traj outs hlt
      rw [predictLoop, if_pos hlt, hnone]
      exact ih (time + step) _ _ _ _ (by linarith)

/-! ### Claims -/

/-- Claim C1 (evidence for the code bug): at the concrete failing input —
valid bullet class, `step = 0`, `maxTime = 1`, a collision adapter that never
reports a hit — the loop of `PredictHitFromLocation` never terminates: no
iteration budget whatsoever makes the call return.  The claim (and the spec)
say the call returns an immediate Miss with an empty trajectory; the code has
no guard against a non-positive step, so `Time += Step` never reaches
`MaxTime`. -/
theorem claim_C1_nonpositive_step_never_terminates :
    ∀ fuel : ℕ,
      PredictHitFromLocation barrelDefault (some bulletZeroDrag) traceNone
        ⟨0, 0, 0⟩ ⟨1, 0, 0⟩ 1 0 defaultOutputs fuel = none := by
  intro fuel
  exact predictLoop_nonpos_step_none bulletZeroDrag traceNone 1 0 le_rfl
    (fun _ _ => rfl) fuel 0 _ _ _ _ (by norm_num)

/-- Claim C2: with an invalid/unresolvable bullet class the call fails fast:
it returns before any integration (the result does not depend on the collision
adapter or on the velocity-update rule, both being universally quantified) and
every out-parameter keeps its caller-visible value; in particular a caller
passing the defaults gets back the defaults — no hit, zero-length trajectory.
(The logged warning is outside the model.) -/
theorem claim_C2_invalid_class_fails_fast (barrel : Barrel)
    (trace : Vec3 → Vec3 → Option HitRes) (startLocation aimDirection : Vec3)
    (maxTime step : ℚ) (fuel : ℕ) :
    (∀ init : Outputs,
        PredictHitFromLocation barrel none trace startLocation aimDirection maxTime step init fuel
          = some init)
    ∧ PredictHitFromLocation barrel none trace startLocation aimDirection maxTime step
        defaultOutputs fuel = some defaultOutputs
    ∧ defaultOutputs.Hit = false
    ∧ defaultOutputs.Trajectory.length = 0 :=
  ⟨fun _ => rfl, rfl, rfl, rfl⟩

/-- Claim C5: on every integration step (the guard `time < maxTime` holding),
the step displacement is the average of the pre-update and post-update
velocities scaled by `step` (trapezoidal rule), the post-update velocity being
the profile's rule applied to the current position, velocity and step; and the
loop both queries the collision adapter on the segment from the current
position to position-plus-displacement and, on a non-hit answer, advances the
position by exactly that displacement. -/
theorem claim_C5_trapezoidal_step (bullet : Bullet) (trace : Vec3 → Vec3 → Option HitRes)
    (maxTime step time : ℚ) (loc vel : Vec3) (traj : List Vec3) (outs0 : Outputs)
    (fuel : ℕ) (h : time < maxTime) :
    stepDisplacement bullet step loc vel
      = step • ((1/2 : ℚ) • (vel + bullet.UpdateVelocity loc vel step))
    ∧ predictLoop bullet trace maxTime step (fuel + 1) time loc vel traj outs0
      = match trace loc (loc + stepDisplacement bullet step loc vel) with
        | some hr => some (hitOuts time step hr traj)
        | none =>
            predictLoop bullet trace maxTime step fuel (time + step)
              (loc + stepDisplacement bullet step loc vel)
              (bullet.UpdateVelocity loc vel step) (traj ++ [loc]) outs0 := by
  constructor
  · rw [stepDisplacement, lerpV_half]
  · rw [predictLoop, if_pos h]

/-- Witness for claim C5 at a concrete input: zero-drag bullet, step `1/10`,
position `(0,0,0)`, velocity `(100,0,0)`, guard `0 < 1`. -/
theorem claim_C5_trapezoidal_step_witness :
    stepDisplacement bulletZeroDrag (1/10) ⟨0, 0, 0⟩ ⟨100, 0, 0⟩
      = (1/10 : ℚ) • ((1/2 : ℚ) • (⟨100, 0, 0⟩ + bulletZeroDrag.UpdateVelocity ⟨0, 0, 0⟩ ⟨100, 0, 0⟩ (1/10)))
    ∧ predictLoop bulletZeroDrag traceNone 1 (1/10) (10 + 1) 0 ⟨0, 0, 0⟩ ⟨100, 0, 0⟩ [] defaultOutputs
      = match traceNone ⟨0, 0, 0⟩ (⟨0, 0, 0⟩ + stepDisplacement bulletZeroDrag (1/10) ⟨0, 0, 0⟩ ⟨100, 0, 0⟩) with
        | some hr => some (hitOuts 0 (1/10) hr [])
        | none =>
            predictLoop bulletZeroDrag traceNone 1 (1/10) 10 (0 + 1/10)
              (⟨0, 0, 0⟩ + stepDisplacement bulletZeroDrag (1/10) ⟨0, 0, 0⟩ ⟨100, 0, 0⟩)
              (bulletZeroDrag.UpdateVelocity ⟨0, 0, 0⟩ ⟨100, 0, 0⟩ (1/10)) ([] ++ [⟨0, 0, 0⟩]) defaultOutputs :=
  claim_C5_trapezoidal_step bulletZeroDrag traceNone 1 (1/10) 0 ⟨0, 0, 0⟩ ⟨100, 0, 0⟩ []
    defaultOutputs 10 (by norm_num)

/-- Claim C6: the concrete zero-drag scenario — start `(0,0,0)`, aim `(1,0,0)`,
effective muzzle speed `100`, `step = 1/10`, `maxTime = 1`, adapter never
hitting — returns a Miss at `(100,0,0)` with time `1` and exactly the ten
samples `x = 0, 10, ..., 90`. -/
theorem claim_C6_zero_drag_scenario :
    PredictHitFromLocation barrelDefault (some bulletZeroDrag) traceNone
      ⟨0, 0, 0⟩ ⟨1, 0, 0⟩ 1 (1/10) defaultOutputs 11
      = some { Hit := false, HitResult := none, HitLocation := ⟨100, 0, 0⟩, HitTime := 1,
               HitActor := none,
               Trajectory := [⟨0, 0, 0⟩, ⟨10, 0, 0⟩, ⟨20, 0, 0⟩, ⟨30, 0, 0⟩, ⟨40, 0, 0⟩,
                              ⟨50, 0, 0⟩, ⟨60, 0, 0⟩, ⟨70, 0, 0⟩, ⟨80, 0, 0⟩, ⟨90, 0, 0⟩] } := by
  norm_num [PredictHitFromLocation, predictLoop, initialVelocity, stepDisplacement,
    lerpV, lerpQ, missOuts, bulletZeroDrag, barrelDefault, traceNone, defaultOutputs,
    getSafeNormal_unitX]

/-- Claim C7: with a valid bullet class and `maxTime = 0` the guard fails at
once: the result is a Miss at the start position with time `0`, an empty
trajectory and a null hit actor, for every collision adapter and every
velocity-update rule (so neither is ever consulted) and every iteration
budget. -/
theorem claim_C7_maxTime_zero_immediate_miss (barrel : Barrel) (bullet : Bullet)
    (trace : Vec3 → Vec3 → Option HitRes) (startLocation aimDirection : Vec3)
    (step : ℚ) (init : Outputs) (fuel : ℕ) :
    PredictHitFromLocation barrel (some bullet) trace startLocation aimDirection 0 step init fuel
      = some { Hit := false, HitResult := init.HitResult, HitLocation := startLocation,
               HitTime := 0, HitActor := none, Trajectory := [] } := by
  cases fuel with
  | zero => simp [PredictHitFromLocation, predictLoop, missOuts]
  | succ n => simp [PredictHitFromLocation, predictLoop, missOuts]

/-- Claim C9: the predictor is deterministic — two calls with identical inputs
against collision adapters that answer identically on every segment produce
identical outputs (the embedding has no other source of state or randomness:
the velocity-update rule and the adapter are pure functions). -/
theorem claim_C9_deterministic (barrel : Barrel) (bulletClass : Option Bullet)
    (trace1 trace2 : Vec3 → Vec3 → Option HitRes) (startLocation aimDirection : Vec3)
    (maxTime step : ℚ) (init : Outputs) (fuel : ℕ)
    (h : ∀ a b, trace1 a b = trace2 a b) :
    PredictHitFromLocation barrel bulletClass trace1 startLocation aimDirection maxTime step init fuel
      = PredictHitFromLocation barrel bulletClass trace2 startLocation aimDirection maxTime step init fuel := by
  have ht : trace1 = trace2 := funext fun a => funext fun b => h a b
  rw [ht]

/-- Witness for claim C9 at a concrete input: two calls against the same
static never-hit adapter coincide. -/
theorem claim_C9_deterministic_witness :
    PredictHitFromLocation barrelDefault (some bulletZeroDrag) traceNone
      ⟨0, 0, 0⟩ ⟨1, 0, 0⟩ 1 (1/10) defaultOutputs 11
      = PredictHitFromLocation barrelDefault (some bulletZeroDrag) traceNone
          ⟨0, 0, 0⟩ ⟨1, 0, 0⟩ 1 (1/10) defaultOutputs 11 :=
  claim_C9_deterministic barrelDefault (some bulletZeroDrag) traceNone traceNone
    ⟨0, 0, 0⟩ ⟨1, 0, 0⟩ 1 (1/10) defaultOutputs 11 (fun _ _ => rfl)

/-- Claim C10: the initial velocity is the deterministic midpoint formula —
`normalize(aim)` scaled by the midpoint of the barrel's muzzle-velocity
multiplier range times the midpoint of the bullet's muzzle-velocity range
(no random sampling enters the computation), plus `AdditionalVelocity`, plus
the attach parent's linear velocity at the start location scaled by
`InheritVelocity` exactly when the parent is a physics-simulating primitive;
and the predictor runs its loop from exactly that initial velocity. -/
theorem claim_C10_initial_velocity_midpoint (barrel : Barrel) (bullet : Bullet)
    (startLocation aimDirection : Vec3) :
    initialVelocity barrel bullet startLocation aimDirection
      = ((barrel.MuzzleVelocityMultiplierMin + barrel.MuzzleVelocityMultiplierMax) / 2
          * ((bullet.MuzzleVelocityMin + bullet.MuzzleVelocityMax) / 2)) • aimDirection.getSafeNormal
        + barrel.AdditionalVelocity
        + (match barrel.attachParent with
           | none => ⟨0, 0, 0⟩
           | some parent =>
               if parent.simulatingPhysics then
                 barrel.InheritVelocity • parent.physicsLinearVelocityAt startLocation
               else ⟨0, 0, 0⟩)
    ∧ ∀ (trace : Vec3 → Vec3 → Option HitRes) (maxTime step : ℚ) (init : Outputs) (fuel : ℕ),
        PredictHitFromLocation barrel (some bullet) trace startLocation aimDirection maxTime step init fuel
          = predictLoop bullet trace maxTime step fuel 0 startLocation
              (initialVelocity barrel bullet startLocation aimDirection) [] init := by
  constructor
  · cases hpar : barrel.attachParent with
    | none =>
        simp only [initialVelocity, lerpQ_half, hpar]
        ext <;> simp
    | some parent =>
        cases hsim : parent.simulatingPhysics with
        | false =>
            simp only [initialVelocity, lerpQ_half, hpar, hsim]
            ext <;> simp
        | true =>
            simp only [initialVelocity, lerpQ_half, hpar, hsim]
            ext <;> simp
  · intro trace maxTime step init fuel
    rfl

/-- The hit outcome of the claim C3 counterexample run: first-step hit with
fraction `1` at `(100,0,0)`, so `HitTime = 0 + 1*1 = 1`. -/
def outsHitC3 : Outputs :=
  { Hit := true, HitResult := some ⟨⟨100, 0, 0⟩, 1, some 0⟩, HitLocation := ⟨100, 0, 0⟩,
    HitTime := 1, HitActor := some 0, Trajectory := [⟨100, 0, 0⟩] }

/-- Counterexample to claim C3 as stated: with `maxTime = 1/2`, `step = 1` and
an adapter hitting at fraction `1` (a legal fraction in `[0,1]`), the call
returns a Hit whose `HitTime = 1` does NOT lie in `[0, maxTime] = [0, 1/2]` —
the guard only bounds the start of the hitting step, so `HitTime` can reach up
to `maxTime + step`. -/
theorem claim_C3_counterexample_hitTime_exceeds_maxTime :
    PredictHitFromLocation barrelDefault (some bulletZeroDrag) traceAlwaysHitEnd
      ⟨0, 0, 0⟩ ⟨1, 0, 0⟩ (1/2) 1 defaultOutputs 5 = some outsHitC3
    ∧ outsHitC3.Hit = true
    ∧ outsHitC3.HitTime = 1
    ∧ ¬ (outsHitC3.HitTime ≤ 1/2) := by
  refine ⟨?_, rfl, rfl, by norm_num [outsHitC3]⟩
  norm_num [PredictHitFromLocation, predictLoop, initialVelocity, stepDisplacement,
    lerpV, lerpQ, hitOuts, outsHitC3, bulletZeroDrag, barrelDefault, traceAlwaysHitEnd,
    defaultOutputs, getSafeNormal_unitX]

/-- Claim C3 as amended: whenever a Hit is returned (with `step > 0` and an
adapter reporting fractions in `[0,1]`), `HitTime = stepIndex*step +
fraction*step` where `stepIndex` is the number of completed full steps before
the hitting step (the trajectory then holds `stepIndex + 1` samples) and
`fraction` is the adapter's hit fraction; and `HitTime` lies in
`[0, maxTime + step)` — not `[0, maxTime]` as originally claimed. -/
theorem claim_C3_hit_time_formula (barrel : Barrel) (bullet : Bullet)
    (trace : Vec3 → Vec3 → Option HitRes) (startLocation aimDirection : Vec3)
    (maxTime step : ℚ) (init : Outputs) (fuel : ℕ) (outs : Outputs)
    (hstep : 0 < step)
    (hfrac : ∀ a b hr, trace a b = some hr → 0 ≤ hr.time ∧ hr.time ≤ 1)
    (hrun : PredictHitFromLocation barrel (some bullet) trace startLocation aimDirection
              maxTime step init fuel = some outs)
    (hhit : outs.Hit = true) :
    ∃ (stepIndex : ℕ) (fraction : ℚ),
      outs.HitTime = (stepIndex : ℚ) * step + fraction * step
      ∧ 0 ≤ fraction ∧ fraction ≤ 1
      ∧ outs.Trajectory.length = stepIndex + 1
      ∧ 0 ≤ outs.HitTime ∧ outs.HitTime < maxTime + step := by
  simp only [PredictHitFromLocation] at hrun
  obtain ⟨j, a, b, hr, htr, h2, h3, h4⟩ :=
    predictLoop_hit_char bullet trace maxTime step fuel 0 startLocation
      (initialVelocity barrel bullet startLocation aimDirection) [] init outs hrun hhit
  obtain ⟨hf0, hf1⟩ := hfrac a b hr htr
  refine ⟨j, hr.time, ?_, hf0, hf1, ?_, ?_, ?_⟩
  · rw [h2]
    ring
  · simpa using h4
  · rw [h2]
    have h5 : 0 ≤ (j : ℚ) * step := mul_nonneg (Nat.cast_nonneg j) hstep.le
    have h6 : 0 ≤ hr.time * step := mul_nonneg hf0 hstep.le
    linarith
  · rw [h2]
    have h7 : hr.time * step ≤ 1 * step := mul_le_mul_of_nonneg_right hf1 hstep.le
    have h8 : 0 + (j : ℚ) * step < maxTime := h3
    linarith

/-- Witness for the amended claim C3 at the concrete counterexample input. -/
theorem claim_C3_hit_time_formula_witness :
    ∃ (stepIndex : ℕ) (fraction : ℚ),
      outsHitC3.HitTime = (stepIndex : ℚ) * 1 + fraction * 1
      ∧ 0 ≤ fraction ∧ fraction ≤ 1
      ∧ outsHitC3.Trajectory.length = stepIndex + 1
      ∧ 0 ≤ outsHitC3.HitTime ∧ outsHitC3.HitTime < 1/2 + 1 :=
  claim_C3_hit_time_formula barrelDefault bulletZeroDrag traceAlwaysHitEnd
    ⟨0, 0, 0⟩ ⟨1, 0, 0⟩ (1/2) 1 defaultOutputs 5 outsHitC3
    (by norm_num)
    (by intro a b hr h
        simp only [traceAlwaysHitEnd, Option.some.injEq] at h
        rw [← h]
        norm_num)
    (by norm_num [PredictHitFromLocation, predictLoop, initialVelocity, stepDisplacement,
          lerpV, lerpQ, hitOuts, outsHitC3, bulletZeroDrag, barrelDefault, traceAlwaysHitEnd,
          defaultOutputs, getSafeNormal_unitX])
    rfl

/-- Claim C4: with a valid bullet class, `step > 0`, an adapter that never
reports a hit, and enough fuel, the call returns a Miss whose trajectory has
exactly `⌈maxTime/step⌉₊` samples (the ceiling taken into `ℕ`, a sample count),
whose location is the final integrated position (the `⌈maxTime/step⌉₊`-fold
iterate of the loop body from the initial state), and whose reported time is
exactly `maxTime` — not the accumulated loop time. -/
theorem claim_C4_miss_count_location_time (barrel : Barrel) (bullet : Bullet)
    (trace : Vec3 → Vec3 → Option HitRes) (startLocation aimDirection : Vec3)
    (maxTime step : ℚ) (init : Outputs) (fuel : ℕ)
    (hstep : 0 < step) (hnone : ∀ a b, trace a b = none)
    (hfuel : Nat.ceil (maxTime / step) ≤ fuel) :
    ∃ outs : Outputs,
      PredictHitFromLocation barrel (some bullet) trace startLocation aimDirection
        maxTime step init fuel = some outs
      ∧ outs.Hit = false
      ∧ outs.HitTime = maxTime
      ∧ outs.HitLocation = ((loopBody bullet step)^[Nat.ceil (maxTime / step)]
          (initState startLocation (initialVelocity barrel bullet startLocation aimDirection))).loc
      ∧ outs.Trajectory.length = Nat.ceil (maxTime / step) := by
  have hc : Nat.ceil ((maxTime -
      (initState startLocation (initialVelocity barrel bullet startLocation aimDirection)).time) / step)
      = Nat.ceil (maxTime / step) := by
    simp [initState]
  have hchar := predictLoop_noHit bullet trace maxTime step hstep hnone fuel
    (initState startLocation (initialVelocity barrel bullet startLocation aimDirection)) init
    (by rw [hc]; exact hfuel)
  rw [hc] at hchar
  refine ⟨_, hchar, rfl, rfl, rfl, ?_⟩
  show ((loopBody bullet step)^[Nat.ceil (maxTime / step)]
      (initState startLocation (initialVelocity barrel bullet startLocation aimDirection))).traj.length
      = Nat.ceil (maxTime / step)
  rw [loopBody_iterate_len]
  simp [initState]

/-- Witness for claim C4 at the concrete zero-drag scenario
(`maxTime = 1`, `step = 1/10`, fuel `11`). -/
theorem claim_C4_miss_count_location_time_witness :
    ∃ outs : Outputs,
      PredictHitFromLocation barrelDefault (some bulletZeroDrag) traceNone
        ⟨0, 0, 0⟩ ⟨1, 0, 0⟩ 1 (1/10) defaultOutputs 11 = some outs
      ∧ outs.Hit = false
      ∧ outs.HitTime = 1
      ∧ outs.HitLocation = ((loopBody bulletZeroDrag (1/10))^[Nat.ceil ((1 : ℚ) / (1/10))]
          (initState ⟨0, 0, 0⟩ (initialVelocity barrelDefault bulletZeroDrag ⟨0, 0, 0⟩ ⟨1, 0, 0⟩))).loc
      ∧ outs.Trajectory.length = Nat.ceil ((1 : ℚ) / (1/10)) :=
  claim_C4_miss_count_location_time barrelDefault bulletZeroDrag traceNone
    ⟨0, 0, 0⟩ ⟨1, 0, 0⟩ 1 (1/10) defaultOutputs 11
    (by norm_num) (fun _ _ => rfl)
    (by rw [show (1 : ℚ) / (1/10) = ((10 : ℕ) : ℚ) by norm_num, Nat.ceil_natCast]
        norm_num)

/-- Counterexample to claim C8's Miss bound as stated: with `maxTime = 1` and
`step = 2/3` the Miss trajectory has `2` samples, but `maxTime/step = 3/2 < 2`
— the sample count is `⌈maxTime/step⌉₊`, which can strictly exceed the
real-valued quotient `maxTime/step`. -/
theorem claim_C8_counterexample_miss_bound :
    PredictHitFromLocation barrelDefault (some bulletZeroDrag) traceNone
      ⟨0, 0, 0⟩ ⟨1, 0, 0⟩ 1 (2/3) defaultOutputs 3
      = some { Hit := false, HitResult := none, HitLocation := ⟨400/3, 0, 0⟩, HitTime := 1,
               HitActor := none, Trajectory := [⟨0, 0, 0⟩, ⟨200/3, 0, 0⟩] }
    ∧ ([(⟨0, 0, 0⟩ : Vec3), ⟨200/3, 0, 0⟩] : List Vec3).length = 2
    ∧ ¬ (((2 : ℕ) : ℚ) ≤ 1 / (2/3)) := by
  refine ⟨?_, rfl, by norm_num⟩
  norm_num [PredictHitFromLocation, predictLoop, initialVelocity, stepDisplacement,
    lerpV, lerpQ, missOuts, bulletZeroDrag, barrelDefault, traceNone, defaultOutputs,
    getSafeNormal_unitX]

/-- Claim C8 as amended: for `step > 0`, (i) the elapsed-time variable is
`k*step` before the `k`-th iteration, hence non-negative and monotonically
non-decreasing across iterations, and the sample count before the `k`-th
iteration is exactly `k` (the number of steps taken so far); (ii) each
non-hit loop iteration advances the very loop call by one `loopBody` step,
appending exactly one sample and not decreasing time; (iii) on a Miss the
final sample count equals `⌈maxTime/step⌉₊` (which can exceed the real
quotient `maxTime/step`, as the counterexample shows), and on a Hit it is
bounded by `maxTime/step + 1`. -/
theorem claim_C8_time_and_sample_invariants (barrel : Barrel) (bullet : Bullet)
    (trace : Vec3 → Vec3 → Option HitRes) (startLocation aimDirection : Vec3)
    (maxTime step : ℚ) (init : Outputs) (hstep : 0 < step) :
    (∀ k : ℕ,
        ((loopBody bullet step)^[k]
            (initState startLocation (initialVelocity barrel bullet startLocation aimDirection))).time
          = (k : ℚ) * step
        ∧ 0 ≤ ((loopBody bullet step)^[k]
            (initState startLocation (initialVelocity barrel bullet startLocation aimDirection))).time
        ∧ ((loopBody bullet step)^[k]
            (initState startLocation (initialVelocity barrel bullet startLocation aimDirection))).time
          ≤ ((loopBody bullet step)^[k + 1]
            (initState startLocation (initialVelocity barrel bullet startLocation aimDirection))).time
        ∧ ((loopBody bullet step)^[k]
            (initState startLocation (initialVelocity barrel bullet startLocation aimDirection))).traj.length
          = k)
    ∧ (∀ (fuel : ℕ) (time : ℚ) (loc vel : Vec3) (traj : List Vec3) (outs0 : Outputs),
        time < maxTime →
        trace loc (loc + stepDisplacement bullet step loc vel) = none →
        predictLoop bullet trace maxTime step (fuel + 1) time loc vel traj outs0
            = predictLoop bullet trace maxTime step fuel (time + step)
                (loc + stepDisplacement bullet step loc vel)
                (bullet.UpdateVelocity loc vel step) (traj ++ [loc]) outs0
          ∧ (traj ++ [loc]).length = traj.length + 1
          ∧ time ≤ time + step)
    ∧ (∀ (fuel : ℕ) (outs : Outputs),
        PredictHitFromLocation barrel (some bullet) trace startLocation aimDirection
          maxTime step init fuel = some outs →
        (outs.Hit = false → outs.Trajectory.length = Nat.ceil (maxTime / step))
        ∧ (outs.Hit = true → (outs.Trajectory.length : ℚ) < maxTime / step + 1)) := by
  refine ⟨?_, ?_, ?_⟩
  · intro k
    refine ⟨?_, ?_, ?_, ?_⟩
    · rw [loopBody_iterate_time]
      simp [initState]
    · rw [loopBody_iterate_time]
      simp [initState]
      exact mul_nonneg (Nat.cast_nonneg k) hstep.le
    · rw [loopBody_iterate_time, loopBody_iterate_time]
      simp only [initState]
      push_cast
      nlinarith [hstep.le]
    · rw [loopBody_iterate_len]
      simp [initState]
  · intro fuel time loc vel traj outs0 hlt htrace
    refine ⟨?_, by simp, by linarith⟩
    rw [predictLoop, if_pos hlt, htrace]
  · intro fuel outs hrun
    simp only [PredictHitFromLocation] at hrun
    constructor
    · intro hmiss
      have hlen := predictLoop_miss_length bullet trace maxTime step hstep fuel 0 startLocation
        (initialVelocity barrel bullet startLocation aimDirection) [] init outs hrun hmiss
      simpa using hlen
    · intro hhit
      obtain ⟨j, a, b, hr, htr, h2, h3, h4⟩ :=
        predictLoop_hit_char bullet trace maxTime step fuel 0 startLocation
          (initialVelocity barrel bullet startLocation aimDirection) [] init outs hrun hhit
      have h4' : outs.Trajectory.length = j + 1 := by simpa using h4
      have hj : (j : ℚ) < maxTime / step := (lt_div_iff₀ hstep).mpr (by linarith)
      rw [h4']
      push_cast
      linarith

/-- Witness for the amended claim C8 at a concrete input
(zero-drag bullet, never-hit adapter, `maxTime = 1`, `step = 1/10 > 0`). -/
theorem claim_C8_time_and_sample_invariants_witness :
    (∀ k : ℕ,
        ((loopBody bulletZeroDrag (1/10))^[k]
            (initState ⟨0, 0, 0⟩ (initialVelocity barrelDefault bulletZeroDrag ⟨0, 0, 0⟩ ⟨1, 0, 0⟩))).time
          = (k : ℚ) * (1/10)
        ∧ 0 ≤ ((loopBody bulletZeroDrag (1/10))^[k]
            (initState ⟨0, 0, 0⟩ (initialVelocity barrelDefault bulletZeroDrag ⟨0, 0, 0⟩ ⟨1, 0, 0⟩))).time
        ∧ ((loopBody bulletZeroDrag (1/10))^[k]
            (initState ⟨0, 0, 0⟩ (initialVelocity barrelDefault bulletZeroDrag ⟨0, 0, 0⟩ ⟨1, 0, 0⟩))).time
          ≤ ((loopBody bulletZeroDrag (1/10))^[k + 1]
            (initState ⟨0, 0, 0⟩ (initialVelocity barrelDefault bulletZeroDrag ⟨0, 0, 0⟩ ⟨1, 0, 0⟩))).time
        ∧ ((loopBody bulletZeroDrag (1/10))^[k]
            (initState ⟨0, 0, 0⟩ (initialVelocity barrelDefault bulletZeroDrag ⟨0, 0, 0⟩ ⟨1, 0, 0⟩))).traj.length
          = k)
    ∧ (∀ (fuel : ℕ) (time : ℚ) (loc vel : Vec3) (traj : List Vec3) (outs0 : Outputs),
        time < 1 →
        traceNone loc (loc + stepDisplacement bulletZeroDrag (1/10) loc vel) = none →
        predictLoop bulletZeroDrag traceNone 1 (1/10) (fuel + 1) time loc vel traj outs0
            = predictLoop bulletZeroDrag traceNone 1 (1/10) fuel (time + 1/10)
                (loc + stepDisplacement bulletZeroDrag (1/10) loc vel)
                (bulletZeroDrag.UpdateVelocity loc vel (1/10)) (traj ++ [loc]) outs0
          ∧ (traj ++ [loc]).length = traj.length + 1
          ∧ time ≤ time + 1/10)
    ∧ (∀ (fuel : ℕ) (outs : Outputs),
        PredictHitFromLocation barrelDefault (some bulletZeroDrag) traceNone
          ⟨0, 0, 0⟩ ⟨1, 0, 0⟩ 1 (1/10) defaultOutputs fuel = some outs →
        (outs.Hit = false → outs.Trajectory.length = Nat.ceil ((1 : ℚ) / (1/10)))
        ∧ (outs.Hit = true → (outs.Trajectory.length : ℚ) < 1 / (1/10) + 1)) :=
  claim_C8_time_and_sample_invariants barrelDefault bulletZeroDrag traceNone
    ⟨0, 0, 0⟩ ⟨1, 0, 0⟩ 1 (1/10) defaultOutputs (by norm_num)
